import Mathlib

set_option maxHeartbeats 1000000

namespace SamarthanSathi

/-- Urgency levels U1 (most critical) to U5 (minimal), per the glossary. -/
inductive UrgencyLevel
  | U1 | U2 | U3 | U4 | U5
deriving DecidableEq, Repr

/-- Modelled from the spec: §4.2 step 4 of the urgency scorer (the backend
scoring service itself is not among the shipped sources).  Clamp the final
score to the interval [0, 100]. -/
def clampScore (s : Int) : Int := max 0 (min 100 s)

/-- Modelled from the spec: §4.2 step 4 — map a score to a discrete level via
the fixed breakpoints (≥85 U1, ≥65 U2, ≥40 U3, ≥20 U4, else U5). -/
def levelOf (s : Int) : UrgencyLevel :=
  if 85 ≤ s then .U1
  else if 65 ≤ s then .U2
  else if 40 ≤ s then .U3
  else if 20 ≤ s then .U4
  else .U5

/-- JS `confidence !== undefined && confidence !== null ? confidence : 0`,
identical in both ConfidenceBadge variants (null/undefined is `none`). -/
def confValue (confidence : Option ℚ) : ℚ := confidence.getD 0

/-- `getLabel` of the first ConfidenceBadge variant. -/
def getLabelA (conf : ℚ) : String :=
  if 0.8 ≤ conf then "High Confidence"
  else if 0.5 ≤ conf then "Medium Confidence"
  else "Low Confidence"

/-- `getLabel` of the second ConfidenceBadge variant. -/
def getLabelB (conf : ℚ) : String :=
  if 0.8 ≤ conf then "High"
  else if 0.5 ≤ conf then "Medium"
  else "Low"

/-- The three confidence bands both badges communicate. -/
inductive Band
  | high | medium | low
deriving DecidableEq, Repr

/-- Band rendered by the first ConfidenceBadge variant, read off its label. -/
def bandA (confidence : Option ℚ) : Band :=
  if getLabelA (confValue confidence) = "High Confidence" then .high
  else if getLabelA (confValue confidence) = "Medium Confidence" then .medium
  else .low

/-- Band rendered by the second ConfidenceBadge variant, read off its label. -/
def bandB (confidence : Option ℚ) : Band :=
  if getLabelB (confValue confidence) = "High" then .high
  else if getLabelB (confValue confidence) = "Medium" then .medium
  else .low

/-- The five exact level strings recognised by both UrgencyBadge variants. -/
def urgencyKeys : List String :=
  ["U1 - Critical", "U2 - High", "U3 - Medium", "U4 - Low", "U5 - Minimal"]

/-- Property names a JS bracket lookup on an object literal finds on the
prototype chain (`Object.prototype`); each is a function or object and so
truthy, which makes `urgencyConfig[level] || fallback` skip the fallback. -/
def protoProps : List String :=
  ["constructor", "hasOwnProperty", "isPrototypeOf", "propertyIsEnumerable",
   "toLocaleString", "toString", "valueOf", "__proto__",
   "__defineGetter__", "__defineSetter__", "__lookupGetter__",
   "__lookupSetter__"]

/-- Does the level hit an inherited `Object.prototype` member rather than an
own key?  An undefined level (`none`) is looked up as the string
`undefined`, which is neither an own key nor inherited. -/
def inheritsProto : Option String → Bool
  | none => false
  | some k => protoProps.contains k

/-- The label rendered by the first UrgencyBadge variant after
`urgencyConfig[level] || fallback` (`level` is `none` when the prop is
undefined): the five own keys yield their labels; a name inherited from
`Object.prototype` is truthy, so the fallback is skipped and the member has
no `label` field (`none` — and its undefined `icon` crashes the render);
every other level takes the fallback. -/
def badgeLabelA (level : Option String) : Option String :=
  if level = some "U1 - Critical" then some "U1 Critical"
  else if level = some "U2 - High" then some "U2 High"
  else if level = some "U3 - Medium" then some "U3 Medium"
  else if level = some "U4 - Low" then some "U4 Low"
  else if level = some "U5 - Minimal" then some "U5 Minimal"
  else if inheritsProto level then none
  else some "U?"

/-- The label rendered by the PipelineVisualizer UrgencyBadge variant after
`urgencyConfig[level] || fallback`, with the same prototype-chain
behaviour on inherited names. -/
def badgeLabelB (level : Option String) : Option String :=
  if level = some "U1 - Critical" then some "U1"
  else if level = some "U2 - High" then some "U2"
  else if level = some "U3 - Medium" then some "U3"
  else if level = some "U4 - Low" then some "U4"
  else if level = some "U5 - Minimal" then some "U5"
  else if inheritsProto level then none
  else some "U?"

/-- Claim C5: for every input the urgency scorer clamps the final score to
[0,100] and maps it to a level by the fixed breakpoints ≥85 U1, ≥65 U2,
≥40 U3, ≥20 U4, else U5; in particular score 85 yields U1 and 84 yields U2. -/
theorem clamp_and_level_breakpoints (s : Int) :
    (0 ≤ clampScore s ∧ clampScore s ≤ 100) ∧
    (levelOf s = .U1 ↔ 85 ≤ s) ∧
    (levelOf s = .U2 ↔ 65 ≤ s ∧ s < 85) ∧
    (levelOf s = .U3 ↔ 40 ≤ s ∧ s < 65) ∧
    (levelOf s = .U4 ↔ 20 ≤ s ∧ s < 40) ∧
    (levelOf s = .U5 ↔ s < 20) ∧
    levelOf 85 = .U1 ∧ levelOf 84 = .U2 := by
  have hc : 0 ≤ clampScore s ∧ clampScore s ≤ 100 := by
    unfold clampScore
    exact ⟨le_max_left 0 _, max_le (by norm_num) (min_le_left 100 s)⟩
  refine ⟨hc, ?_, ?_, ?_, ?_, ?_, by decide, by decide⟩ <;>
    (unfold levelOf; split_ifs <;> simp_all <;> omega)

/-- The first badge's band is determined by the 0.8 / 0.5 thresholds. -/
lemma bandA_eq (c : Option ℚ) :
    bandA c = (if 0.8 ≤ confValue c then Band.high
               else if 0.5 ≤ confValue c then Band.medium else Band.low) := by
  unfold bandA getLabelA
  split_ifs <;> simp_all

/-- The second badge's band is determined by the 0.8 / 0.5 thresholds. -/
lemma bandB_eq (c : Option ℚ) :
    bandB c = (if 0.8 ≤ confValue c then Band.high
               else if 0.5 ≤ confValue c then Band.medium else Band.low) := by
  unfold bandB getLabelB
  split_ifs <;> simp_all

/-- Claim C9: the two ConfidenceBadge implementations classify every
confidence value into the same three bands (High for ≥ 0.8, Medium for
≥ 0.5, Low otherwise) and both substitute 0 — the Low band — for a
null/undefined confidence, so the two variants always agree on the band. -/
theorem confidence_badges_agree (c : Option ℚ) :
    bandA c = bandB c ∧
    (bandA c = .high ↔ 0.8 ≤ confValue c) ∧
    (bandA c = .medium ↔ 0.5 ≤ confValue c ∧ confValue c < 0.8) ∧
    (bandA c = .low ↔ confValue c < 0.5) ∧
    confValue none = 0 ∧ bandA (none : Option ℚ) = .low := by
  rw [bandA_eq, bandB_eq]
  have h0 : confValue (none : Option ℚ) = 0 := rfl
  refine ⟨rfl, ?_, ?_, ?_, h0, ?_⟩
  · split_ifs <;> simp_all
  · split_ifs <;> simp_all
  · split_ifs <;> simp_all
    linarith
  · rw [bandA_eq, h0]
    norm_num

/-- Claim C10, as stated, fails: `toString` is not one of the five level
keys, yet `urgencyConfig['toString']` finds the truthy inherited
`Object.prototype` member, so `|| fallback` is skipped and the rendered
label is undefined rather than `U?` (and the first variant crashes on the
undefined icon). -/
theorem urgency_badge_counterexample :
    some "toString" ∉ urgencyKeys.map some ∧
    badgeLabelA (some "toString") ≠ some "U?" ∧
    badgeLabelB (some "toString") ≠ some "U?" := by decide

/-- Claim C10 (amended): both UrgencyBadge variants render the fallback
`U?` for every level value that is neither one of the five exact strings
nor a property name inherited from `Object.prototype` (an undefined level
included, so a bare `U1`..`U5` string falls through to `U?`); for an
inherited name such as `toString` the lookup is truthy, the fallback is
skipped, and the rendered label is undefined. -/
theorem urgency_badge_total (level : Option String) (k : String)
    (h1 : level ∉ urgencyKeys.map some)
    (h2 : inheritsProto level = false)
    (h3 : k ∈ protoProps) :
    (badgeLabelA level = some "U?" ∧ badgeLabelB level = some "U?") ∧
    (badgeLabelA (some k) = none ∧ badgeLabelB (some k) = none) := by
  constructor
  · unfold badgeLabelA badgeLabelB
    split_ifs <;> simp_all [urgencyKeys]
  · have hk : inheritsProto (some k) = true := by
      simp [inheritsProto, List.contains_iff_exists_mem_beq]
      exact h3
    have hkeys : some k ∉ urgencyKeys.map some := by
      fin_cases h3 <;> decide
    unfold badgeLabelA badgeLabelB
    split_ifs <;> simp_all [urgencyKeys]

/-- The bare string `U1` and an undefined level both fall through to `U?`,
while the inherited name `toString` yields an undefined label in both
UrgencyBadge variants. -/
theorem urgency_badge_total_witness :
    (badgeLabelA (some "U1") = some "U?" ∧
     badgeLabelB (some "U1") = some "U?") ∧
    (badgeLabelA none = some "U?" ∧ badgeLabelB none = some "U?") ∧
    (badgeLabelA (some "toString") = none ∧
     badgeLabelB (some "toString") = none) :=
  ⟨(urgency_badge_total (some "U1") "toString" (by decide) (by decide)
      (by decide)).1,
   (urgency_badge_total none "toString" (by decide) (by decide)
      (by decide)).1,
   (urgency_badge_total (some "U1") "toString" (by decide) (by decide)
      (by decide)).2⟩

/-- Request lifecycle status (`new` → `in_progress` → `dispatched`). -/
inductive ReqStatus
  | new | in_progress | dispatched
deriving DecidableEq, Repr

/-- A resource provider; `quantity_available` is the mutable stock. -/
structure Provider where
  pid : Nat
  quantity_available : Int
deriving DecidableEq, Repr

/-- The request fields a dispatch touches. -/
structure CrisisReq where
  rid : Nat
  status : ReqStatus
deriving DecidableEq, Repr

/-- Audit record appended by a successful dispatch. -/
structure DispatchRecord where
  request_id : Nat
  resource_id : Nat
  quantity : Int
deriving DecidableEq, Repr

/-- Dispatch failure condition. -/
inductive DispatchErr
  | CapacityExceeded
deriving DecidableEq, Repr

/-- The state a dispatch mutates: one provider, one request, the audit log. -/
structure DispatchState where
  provider : Provider
  request : CrisisReq
  records : List DispatchRecord
deriving DecidableEq, Repr

/-- Modelled from the spec: §4.5 — the backend dispatch mutation is not among
the shipped sources.  Validate that the provider still has sufficient
`quantity_available` (else fail with `CapacityExceeded`, leaving state
unchanged); on success decrement the stock, mark the request dispatched and
append a `DispatchRecord`. -/
def dispatch (st : DispatchState) (q : Int) :
    DispatchState × Except DispatchErr Unit :=
  if st.provider.quantity_available < q then
    (st, .error .CapacityExceeded)
  else
    ({ provider := { st.provider with
         quantity_available := st.provider.quantity_available - q },
       request := { st.request with status := .dispatched },
       records := st.records ++ [⟨st.request.rid, st.provider.pid, q⟩] },
     .ok ())

/-- The DispatchButton quantity state after an onChange event:
JS `parseInt(e.target.value) || 1`, where `none` models a NaN parse.  Only
0 and NaN fall back to 1; negative parses pass through. -/
def parsedQuantity (entry : Option Int) : Int :=
  match entry with
  | none => 1
  | some n => if n = 0 then 1 else n

/-- The DispatchButton confirm button is enabled — so a dispatch call can be
issued — iff `quantity > maxQuantity` is false (both variants). -/
def dispatchEnabled (quantity maxQuantity : Int) : Bool :=
  decide (quantity ≤ maxQuantity)

/-- Claim C1, as stated, fails in the dispatch UI: typing `-3` into the
quantity input parses to −3 (the `|| 1` fallback only replaces 0 and NaN),
the confirm button stays enabled because −3 > maxQuantity is false, and a
dispatch call is issued with a quantity below 1. -/
theorem dispatch_gate_counterexample :
    dispatchEnabled (parsedQuantity (some (-3))) 5 = true ∧
    ¬ (1 ≤ parsedQuantity (some (-3))) := by decide

/-- Claim C1 (amended): dispatch never drives `quantity_available` negative —
a request for more than the available quantity fails with `CapacityExceeded`
leaving provider, request and audit log unchanged, and a granted request
leaves a non-negative stock; in the dispatch UI, a dispatch call is only
issued when the parsed quantity is at most the provider's available
quantity, and the parsed quantity is at least 1 whenever the entered value
is non-negative (entries parsing to 0 or NaN fall back to 1; negative
entries are not blocked by the UI). -/
theorem dispatch_capacity_safe (st : DispatchState) (q : Int)
    (entry : Option Int) (maxQ : Int) :
    (st.provider.quantity_available < q →
      dispatch st q = (st, .error .CapacityExceeded)) ∧
    (q ≤ st.provider.quantity_available →
      (dispatch st q).2 = .ok () ∧
      (dispatch st q).1.provider.quantity_available
        = st.provider.quantity_available - q ∧
      0 ≤ (dispatch st q).1.provider.quantity_available ∧
      (dispatch st q).1.request.status = .dispatched) ∧
    (dispatchEnabled (parsedQuantity entry) maxQ = true →
      parsedQuantity entry ≤ maxQ) ∧
    ((∀ n, entry = some n → 0 ≤ n) → 1 ≤ parsedQuantity entry) := by
  refine ⟨?_, ?_, ?_, ?_⟩
  · intro h
    unfold dispatch
    rw [if_pos h]
  · intro h
    unfold dispatch
    rw [if_neg (not_lt.mpr h)]
    exact ⟨rfl, rfl, by simp; omega, rfl⟩
  · intro h
    exact of_decide_eq_true h
  · intro h
    cases entry with
    | none => norm_num [parsedQuantity]
    | some n =>
        have hn := h n rfl
        simp only [parsedQuantity]
        split_ifs <;> omega

/-- Concrete dispatch runs: requesting 7 units against a stock of 5 fails
with `CapacityExceeded` and leaves the state unchanged; requesting 3 units
against 5 succeeds leaving a stock of 2; the UI gate at maxQuantity 5
admits a parsed entry of 4, which is at least 1. -/
theorem dispatch_capacity_safe_witness :
    (dispatch ⟨⟨1, 5⟩, ⟨2, .new⟩, []⟩ 7
      = (⟨⟨1, 5⟩, ⟨2, .new⟩, []⟩, .error .CapacityExceeded)) ∧
    ((dispatch ⟨⟨1, 5⟩, ⟨2, .new⟩, []⟩ 3).2 = .ok () ∧
     (dispatch ⟨⟨1, 5⟩, ⟨2, .new⟩, []⟩ 3).1.provider.quantity_available = 2 ∧
     0 ≤ (dispatch ⟨⟨1, 5⟩, ⟨2, .new⟩, []⟩ 3).1.provider.quantity_available ∧
     (dispatch ⟨⟨1, 5⟩, ⟨2, .new⟩, []⟩ 3).1.request.status = .dispatched) ∧
    parsedQuantity (some 4) ≤ 5 ∧ 1 ≤ parsedQuantity (some 4) := by
  have h1 := (dispatch_capacity_safe ⟨⟨1, 5⟩, ⟨2, .new⟩, []⟩ 7 (some 4) 5).1
    (by decide)
  have h2 := (dispatch_capacity_safe ⟨⟨1, 5⟩, ⟨2, .new⟩, []⟩ 3 (some 4) 5).2.1
    (by decide)
  have h3 := (dispatch_capacity_safe ⟨⟨1, 5⟩, ⟨2, .new⟩, []⟩ 3 (some 4) 5).2.2.1
    (by decide)
  have h4 := (dispatch_capacity_safe ⟨⟨1, 5⟩, ⟨2, .new⟩, []⟩ 3 (some 4) 5).2.2.2
    (by intro n hn; cases hn; decide)
  exact ⟨h1, ⟨h2.1, by rw [h2.2.1]; decide, h2.2.2.1, h2.2.2.2⟩, h3, h4⟩

/-- A queued crisis request as the queue orchestrator sees it. -/
structure QueueItem where
  rid : Nat
  level : UrgencyLevel
  createdAt : Nat
  status : ReqStatus
deriving DecidableEq, Repr

/-- Numeric rank of a level; U1 ranks lowest so it sorts first. -/
def urgencyRank : UrgencyLevel → Nat
  | .U1 => 1
  | .U2 => 2
  | .U3 => 3
  | .U4 => 4
  | .U5 => 5

/-- A request is open while it has not been dispatched. -/
def isOpen (s : ReqStatus) : Bool :=
  match s with
  | .dispatched => false
  | _ => true

/-- Queue ordering: primarily by urgency level (U1 first), secondarily by
creation time (oldest first) within the same level. -/
def queueLE (a b : QueueItem) : Bool :=
  decide (urgencyRank a.level < urgencyRank b.level) ||
    (decide (urgencyRank a.level = urgencyRank b.level) &&
      decide (a.createdAt ≤ b.createdAt))

lemma queueLE_total (a b : QueueItem) :
    queueLE a b = true ∨ queueLE b a = true := by
  unfold queueLE
  simp only [Bool.or_eq_true, Bool.and_eq_true, decide_eq_true_eq]
  omega

lemma queueLE_trans {a b c : QueueItem} (h1 : queueLE a b = true)
    (h2 : queueLE b c = true) : queueLE a c = true := by
  unfold queueLE at h1 h2 ⊢
  simp only [Bool.or_eq_true, Bool.and_eq_true, decide_eq_true_eq] at h1 h2 ⊢
  omega

/-- Modelled from the spec: §4.5 queue orchestrator (the backend is not among
the shipped sources) — insert one request into an already ordered queue. -/
def insertReq (r : QueueItem) : List QueueItem → List QueueItem
  | [] => [r]
  | x :: xs => if queueLE r x then r :: x :: xs else x :: insertReq r xs

/-- Modelled from the spec: §4.5 — sort the open requests by `queueLE`. -/
def sortQueue : List QueueItem → List QueueItem
  | [] => []
  | x :: xs => insertReq x (sortQueue xs)

/-- Modelled from the spec: `GET /requests/queue?limit=N` — the open requests
in queue order, truncated to the limit. -/
def getQueue (reqs : List QueueItem) (limit : Nat) : List QueueItem :=
  (sortQueue (reqs.filter fun r => isOpen r.status)).take limit

lemma insertReq_perm (r : QueueItem) (l : List QueueItem) :
    (insertReq r l).Perm (r :: l) := by
  induction l with
  | nil => simp [insertReq]
  | cons x xs ih =>
      unfold insertReq
      split_ifs with h
      · exact List.Perm.refl _
      · exact (List.Perm.cons x ih).trans (List.Perm.swap r x xs)

lemma insertReq_sorted (r : QueueItem) (l : List QueueItem)
    (h : l.Pairwise fun a b => queueLE a b = true) :
    (insertReq r l).Pairwise fun a b => queueLE a b = true := by
  induction l with
  | nil => simp [insertReq]
  | cons x xs ih =>
      rw [List.pairwise_cons] at h
      unfold insertReq
      split_ifs with hle
      · rw [List.pairwise_cons]
        refine ⟨?_, List.pairwise_cons.mpr h⟩
        intro b hb
        rcases List.mem_cons.mp hb with rfl | hb2
        · exact hle
        · exact queueLE_trans hle (h.1 b hb2)
      · rw [List.pairwise_cons]
        have hxr : queueLE x r = true := by
          rcases queueLE_total r x with h1 | h1
          · exact absurd h1 hle
          · exact h1
        refine ⟨?_, ih h.2⟩
        intro b hb
        rcases List.mem_cons.mp ((insertReq_perm r xs).mem_iff.mp hb)
          with rfl | hb2
        · exact hxr
        · exact h.1 b hb2

lemma sortQueue_perm (l : List QueueItem) : (sortQueue l).Perm l := by
  induction l with
  | nil => rfl
  | cons x xs ih => exact (insertReq_perm x (sortQueue xs)).trans (ih.cons x)

lemma sortQueue_sorted (l : List QueueItem) :
    (sortQueue l).Pairwise fun a b => queueLE a b = true := by
  induction l with
  | nil => simp [sortQueue]
  | cons x xs ih => exact insertReq_sorted x (sortQueue xs) ih

/-- Claim C4: every queue returned by `GET /requests/queue?limit=N` lists the
open CrisisRequests sorted primarily by urgency level (U1 first) and, within
the same level, by creation time (oldest first): the result is ordered by
`queueLE`, contains only open requests drawn from the store, and when the
limit does not cut it off it is exactly the open requests. -/
theorem queue_ordered (reqs : List QueueItem) (limit : Nat) :
    ((getQueue reqs limit).Pairwise fun a b => queueLE a b = true) ∧
    (∀ r ∈ getQueue reqs limit, isOpen r.status = true ∧ r ∈ reqs) ∧
    ((reqs.filter fun r => isOpen r.status).length ≤ limit →
      (getQueue reqs limit).Perm (reqs.filter fun r => isOpen r.status)) := by
  refine ⟨?_, ?_, ?_⟩
  · exact (sortQueue_sorted _).sublist (List.take_sublist _ _)
  · intro r hr
    have h1 : r ∈ sortQueue (reqs.filter fun r => isOpen r.status) :=
      List.mem_of_mem_take hr
    have h2 : r ∈ reqs.filter fun r => isOpen r.status :=
      (sortQueue_perm _).mem_iff.mp h1
    have h3 := List.mem_filter.mp h2
    exact ⟨h3.2, h3.1⟩
  · intro h
    unfold getQueue
    rw [List.take_of_length_le]
    · exact sortQueue_perm _
    · rw [(sortQueue_perm _).length_eq]
      exact h

/-- A demo store: three open requests and one dispatched request. -/
def demoQueue : List QueueItem :=
  [⟨1, .U3, 5, .new⟩, ⟨2, .U1, 9, .new⟩, ⟨3, .U3, 1, .dispatched⟩,
   ⟨4, .U3, 2, .in_progress⟩]

/-- On the demo store the returned queue is ordered and is a permutation of
the open requests (the limit 10 does not cut it off). -/
theorem queue_ordered_witness :
    ((getQueue demoQueue 10).Pairwise fun a b => queueLE a b = true) ∧
    ((getQueue demoQueue 10).Perm (demoQueue.filter fun r => isOpen r.status)) :=
  ⟨(queue_ordered demoQueue 10).1,
   (queue_ordered demoQueue 10).2.2 (by decide)⟩

/-- Structured extraction result (§3), reduced to the fields the claims
touch. -/
structure ExtractionResult where
  need_type : Option String
  location : Option String
  coordinates : Option (ℚ × ℚ)
  overall_confidence : ℚ
  flags : List String
deriving DecidableEq, Repr

/-- Outcome of an external collaborator call (NLP model or geocoder). -/
inductive CollabOutcome
  | ok | failure | timeout
deriving DecidableEq, Repr

/-- Modelled from the spec: §4.3 and §7 — the entity-extractor adapter is not
among the shipped sources.  A failing or timed-out NLP call degrades to an
empty extraction flagged `extraction_unavailable`; a failing or timed-out
geocoder call keeps the text extraction but drops the coordinates and adds
the `low_confidence_location` flag.  Failures are absorbed, never raised. -/
def extractWith (nlp geo : CollabOutcome) (full : ExtractionResult) :
    ExtractionResult :=
  if nlp = .ok then
    if geo = .ok then full
    else { full with coordinates := none, flags := full.flags ++ ["low_confidence_location"] }
  else
    { need_type := none, location := none, coordinates := none, overall_confidence := 0, flags := ["extraction_unavailable"] }

/-- Error taxonomy entries the request endpoints can return (§7). -/
inductive ApiError
  | ValidationError
deriving DecidableEq, Repr

/-- A persisted CrisisRequest, reduced to the fields the claims touch. -/
structure StoredRequest where
  rid : Nat
  raw_text : String
  extraction : ExtractionResult
  level : UrgencyLevel
deriving DecidableEq, Repr

/-- The backend's persistent store of crisis requests. -/
structure ServerState where
  requests : List StoredRequest
deriving DecidableEq, Repr

/-- Length of the raw text after a JS-style trim, computed on the underlying
character list so that concrete instances evaluate inside the kernel. -/
def trimmedLen (s : String) : Nat :=
  ((s.data.dropWhile Char.isWhitespace).reverse.dropWhile
    Char.isWhitespace).length

/-- Modelled from the spec: §6 `POST /requests/submit` and §7 propagation —
too-short text (the form advertises a 10-character minimum) is rejected
with `ValidationError`; otherwise the report is always accepted and
persisted, even when the NLP or geocoding collaborators fail, with
enrichment failures only degrading the stored extraction. -/
def submitText (st : ServerState) (text : String) (nlp geo : CollabOutcome)
    (full : ExtractionResult) (score : Int) :
    ServerState × Except ApiError StoredRequest :=
  if trimmedLen text < 10 then (st, .error .ValidationError)
  else
    let req : StoredRequest :=
      ⟨st.requests.length, text, extractWith nlp geo full,
       levelOf (clampScore score)⟩
    (⟨st.requests ++ [req]⟩, .ok req)

/-- A preview response: extraction plus urgency analysis, nothing stored. -/
structure PreviewResponse where
  preview_id : Nat
  extraction : ExtractionResult
  level : UrgencyLevel
  score : Int
deriving DecidableEq, Repr

/-- Modelled from the spec: §6 `POST /requests/preview` — returns extraction
and urgency analysis for the raw text without persisting a CrisisRequest
(the shipped client only contains callers of this operation). -/
def previewText (st : ServerState) (text : String) (nlp geo : CollabOutcome)
    (full : ExtractionResult) (score : Int) :
    ServerState × Except ApiError PreviewResponse :=
  if trimmedLen text < 10 then (st, .error .ValidationError)
  else
    (st, .ok ⟨st.requests.length, extractWith nlp geo full,
      levelOf (clampScore score), clampScore score⟩)

/-- Claim C3: for every submission that passes text validation, failures of
the NLP extraction or geocoding collaborators (including timeouts) are
absorbed: the crisis report is accepted and persisted with the failure
surfaced only as a low-confidence flag on its extraction — never as a
fatal error to the submitter. -/
theorem enrichment_failures_absorbed (st : ServerState) (text : String)
    (nlp geo : CollabOutcome) (full : ExtractionResult) (score : Int)
    (hv : 10 ≤ trimmedLen text) :
    ∃ req, (submitText st text nlp geo full score).2 = .ok req ∧
      req ∈ (submitText st text nlp geo full score).1.requests ∧
      req.raw_text = text ∧
      (nlp ≠ .ok → "extraction_unavailable" ∈ req.extraction.flags) ∧
      (nlp = .ok → geo ≠ .ok →
        "low_confidence_location" ∈ req.extraction.flags) := by
  unfold submitText
  rw [if_neg (by omega)]
  refine ⟨_, rfl, by simp, rfl, ?_, ?_⟩
  · intro hn
    cases nlp <;> simp_all [extractWith]
  · intro hn hg
    cases nlp <;> cases geo <;> simp_all [extractWith]

/-- A submission whose NLP call fails is still accepted and carries the
`extraction_unavailable` flag; one whose geocoder call times out is
accepted and carries the `low_confidence_location` flag. -/
theorem enrichment_failures_absorbed_witness :
    (∃ req, (submitText ⟨[]⟩ "Flood near Kurla, send boats" .failure .ok
        ⟨some "rescue", some "Kurla", none, 0.6, []⟩ 70).2 = .ok req ∧
      "extraction_unavailable" ∈ req.extraction.flags) ∧
    (∃ req, (submitText ⟨[]⟩ "Flood near Kurla, send boats" .ok .timeout
        ⟨some "rescue", some "Kurla", none, 0.6, []⟩ 70).2 = .ok req ∧
      "low_confidence_location" ∈ req.extraction.flags) := by
  constructor
  · obtain ⟨req, h1, _, _, h4, _⟩ :=
      enrichment_failures_absorbed ⟨[]⟩ "Flood near Kurla, send boats"
        .failure .ok ⟨some "rescue", some "Kurla", none, 0.6, []⟩ 70
        (by decide)
    exact ⟨req, h1, h4 (by decide)⟩
  · obtain ⟨req, h1, _, _, _, h5⟩ :=
      enrichment_failures_absorbed ⟨[]⟩ "Flood near Kurla, send boats"
        .ok .timeout ⟨some "rescue", some "Kurla", none, 0.6, []⟩ 70
        (by decide)
    exact ⟨req, h1, h5 rfl (by decide)⟩

/-- Claim C7: empty or near-empty raw text is rejected with a
`ValidationError` by both the submit and the preview operation, leaving the
store unchanged; the operations are total, so no input crashes them. -/
theorem short_text_validation_error (st : ServerState) (text : String)
    (nlp geo : CollabOutcome) (full : ExtractionResult) (score : Int)
    (h : trimmedLen text < 10) :
    submitText st text nlp geo full score = (st, .error .ValidationError) ∧
    previewText st text nlp geo full score = (st, .error .ValidationError) := by
  unfold submitText previewText
  rw [if_pos h, if_pos h]
  exact ⟨rfl, rfl⟩

/-- The literal text `hi` yields a ValidationError from both operations. -/
theorem short_text_validation_error_witness :
    submitText ⟨[]⟩ "hi" .ok .ok ⟨none, none, none, 0, []⟩ 0
      = (⟨[]⟩, .error .ValidationError) ∧
    previewText ⟨[]⟩ "hi" .ok .ok ⟨none, none, none, 0, []⟩ 0
      = (⟨[]⟩, .error .ValidationError) :=
  short_text_validation_error ⟨[]⟩ "hi" .ok .ok ⟨none, none, none, 0, []⟩ 0
    (by decide)

/-- An API call issued by the CreateRequestForm; the log is newest first.
`previewCall` records whether the call succeeded. -/
inductive ApiCall
  | previewCall (text : String) (succeeded : Bool)
  | submitCall (text : String) (confirmed : Bool)
  | feedbackCall (is_correct : Bool)
deriving DecidableEq, Repr

/-- State of the preview/confirm CreateRequestForm: the message being
edited, the preview response gating the confirmation dialog, and the log of
API calls issued so far (newest first). -/
structure FormState where
  message : String
  previewData : Option Nat
  calls : List ApiCall
deriving DecidableEq, Repr

/-- The initial form state: empty message, no preview shown, no calls. -/
def initForm : FormState := ⟨"", none, []⟩

/-- A user/environment event driving the form.  `submitForm res` is a click
on Submit Report, with `res` the preview response the server returns
(`none` when the preview call fails); `confirm` and `correct` are the
dialog buttons; `abandon` closes the dialog without issuing any call. -/
inductive FormEvent
  | edit (s : String)
  | submitForm (res : Option Nat)
  | confirm
  | correct
  | abandon
deriving DecidableEq, Repr

/-- One step of the CreateRequestForm (the preview/confirm variant):
`handleSubmit` is gated on a non-blank message and issues only a preview
call, showing the dialog on success; `handleConfirm` and `handleCorrect`
are reachable only while the dialog is shown and issue the persisting
submit followed by a feedback call, then clear the form; editing is only
possible while the modal dialog is closed. -/
def formStep : FormState → FormEvent → FormState
  | st, .edit s =>
      match st.previewData with
      | some _ => st
      | none => { st with message := s }
  | st, .submitForm res =>
      if trimmedLen st.message = 0 then st
      else { message := st.message, previewData := res,
             calls := ApiCall.previewCall st.message res.isSome :: st.calls }
  | st, .confirm =>
      match st.previewData with
      | none => st
      | some _ =>
          { message := "", previewData := none,
            calls := ApiCall.feedbackCall true ::
              ApiCall.submitCall st.message true :: st.calls }
  | st, .correct =>
      match st.previewData with
      | none => st
      | some _ =>
          { message := "", previewData := none,
            calls := ApiCall.feedbackCall false ::
              ApiCall.submitCall st.message false :: st.calls }
  | st, .abandon => { st with previewData := none }

/-- Run the form over a list of events starting from the initial state. -/
def runForm (evs : List FormEvent) : FormState :=
  evs.foldl formStep initForm

/-- Does the log contain a successful preview call for text `t`? -/
def previewedIn (l : List ApiCall) (t : String) : Bool :=
  l.any fun c => c = .previewCall t true

/-- Every persisting submit call in the newest-first log was preceded by a
successful preview call for the same text. -/
def submitsPreviewed : List ApiCall → Bool
  | [] => true
  | .submitCall t _ :: rest => previewedIn rest t && submitsPreviewed rest
  | _ :: rest => submitsPreviewed rest

/-- The texts persisted by the calls in a newest-first log, oldest first:
only the submit endpoint persists a CrisisRequest (modelled from the spec,
§5 cancellation and §6). -/
def persistedTexts : List ApiCall → List String
  | [] => []
  | .submitCall t _ :: rest => persistedTexts rest ++ [t]
  | _ :: rest => persistedTexts rest

lemma formStep_inv (st : FormState)
    (h1 : submitsPreviewed st.calls = true)
    (h2 : st.previewData.isSome → previewedIn st.calls st.message = true)
    (ev : FormEvent) :
    submitsPreviewed (formStep st ev).calls = true ∧
    ((formStep st ev).previewData.isSome →
      previewedIn (formStep st ev).calls (formStep st ev).message = true) := by
  cases ev with
  | edit s =>
      cases hp : st.previewData with
      | none => simpa [formStep, hp] using h1
      | some pid =>
          refine ⟨by simpa [formStep, hp] using h1, ?_⟩
          intro hs
          simp only [formStep, hp]
          exact h2 (by simp [hp])
  | submitForm res =>
      by_cases hm : trimmedLen st.message = 0
      · exact ⟨by simpa [formStep, hm] using h1,
          by simpa [formStep, hm] using h2⟩
      · refine ⟨by simpa [formStep, hm, submitsPreviewed] using h1, ?_⟩
        intro hs
        simp only [formStep, hm, if_false, previewedIn, List.any_cons]
        have : res.isSome = true := by
          simpa [formStep, hm] using hs
        simp [this]
  | confirm =>
      cases hp : st.previewData with
      | none => exact ⟨by simpa [formStep, hp] using h1, by simp [formStep, hp]⟩
      | some pid =>
          refine ⟨?_, by simp [formStep, hp]⟩
          have hprev : previewedIn st.calls st.message = true :=
            h2 (by simp [hp])
          simp [formStep, hp, submitsPreviewed, hprev, h1]
  | correct =>
      cases hp : st.previewData with
      | none => exact ⟨by simpa [formStep, hp] using h1, by simp [formStep, hp]⟩
      | some pid =>
          refine ⟨?_, by simp [formStep, hp]⟩
          have hprev : previewedIn st.calls st.message = true :=
            h2 (by simp [hp])
          simp [formStep, hp, submitsPreviewed, hprev, h1]
  | abandon => exact ⟨by simpa [formStep] using h1, by simp [formStep]⟩

lemma runForm_inv (evs : List FormEvent) :
    submitsPreviewed (runForm evs).calls = true ∧
    ((runForm evs).previewData.isSome →
      previewedIn (runForm evs).calls (runForm evs).message = true) := by
  suffices h : ∀ st : FormState, submitsPreviewed st.calls = true →
      (st.previewData.isSome → previewedIn st.calls st.message = true) →
      submitsPreviewed (evs.foldl formStep st).calls = true ∧
      ((evs.foldl formStep st).previewData.isSome →
        previewedIn (evs.foldl formStep st).calls
          (evs.foldl formStep st).message = true) by
    exact h initForm rfl (by simp [initForm])
  induction evs with
  | nil => exact fun st h1 h2 => ⟨h1, h2⟩
  | cons e rest ih =>
      intro st h1 h2
      have hstep := formStep_inv st h1 h2 e
      exact ih _ hstep.1 hstep.2

/-- Claim C2: the client's preview operation returns the extraction result
and urgency analysis for raw text without persisting a CrisisRequest, and
in the form every persisting submit call is preceded by a successful
preview call for the same text, so the confirm/correct workflow runs
before any commit. -/
theorem preview_before_submit (st : ServerState) (text : String)
    (nlp geo : CollabOutcome) (full : ExtractionResult) (score : Int)
    (evs : List FormEvent) :
    (previewText st text nlp geo full score).1 = st ∧
    (10 ≤ trimmedLen text →
      ∃ p, (previewText st text nlp geo full score).2 = .ok p ∧
        p.extraction = extractWith nlp geo full ∧
        p.level = levelOf (clampScore score)) ∧
    submitsPreviewed (runForm evs).calls = true := by
  refine ⟨?_, ?_, (runForm_inv evs).1⟩
  · unfold previewText
    split_ifs <;> rfl
  · intro h
    unfold previewText
    rw [if_neg (by omega)]
    exact ⟨_, rfl, rfl, rfl⟩

/-- A concrete session: edit, preview, confirm.  The preview leaves the
store untouched and produces the extraction and urgency data, and the
resulting call log satisfies the preview-before-submit discipline. -/
theorem preview_before_submit_witness :
    (previewText ⟨[]⟩ "Fire at Andheri Station, need ambulance" .ok .ok
      ⟨some "fire", some "Andheri Station", none, 0.57, []⟩ 70).1 = ⟨[]⟩ ∧
    (∃ p, (previewText ⟨[]⟩ "Fire at Andheri Station, need ambulance" .ok .ok
        ⟨some "fire", some "Andheri Station", none, 0.57, []⟩ 70).2 = .ok p ∧
      p.extraction = extractWith .ok .ok
        ⟨some "fire", some "Andheri Station", none, 0.57, []⟩ ∧
      p.level = levelOf (clampScore 70)) ∧
    submitsPreviewed (runForm
      [.edit "Fire at Andheri Station, need ambulance",
       .submitForm (some 0), .confirm]).calls = true := by
  have h := preview_before_submit ⟨[]⟩
    "Fire at Andheri Station, need ambulance" .ok .ok
    ⟨some "fire", some "Andheri Station", none, 0.57, []⟩ 70
    [.edit "Fire at Andheri Station, need ambulance",
     .submitForm (some 0), .confirm]
  exact ⟨h.1, h.2.1 (by decide), h.2.2⟩

lemma noSubmit_step (st : FormState) (ev : FormEvent)
    (hev : ev ≠ FormEvent.confirm ∧ ev ≠ FormEvent.correct)
    (h : ∀ t b, ApiCall.submitCall t b ∉ st.calls) :
    ∀ t b, ApiCall.submitCall t b ∉ (formStep st ev).calls := by
  intro t b
  cases ev with
  | edit s =>
      cases hp : st.previewData with
      | none => simpa [formStep, hp] using h t b
      | some pid => simpa [formStep, hp] using h t b
  | submitForm res =>
      by_cases hm : trimmedLen st.message = 0
      · simpa [formStep, hm] using h t b
      · simp only [formStep, hm, if_false, List.mem_cons]
        rintro (hc | hc)
        · exact absurd hc (by simp)
        · exact h t b hc
  | confirm => exact absurd rfl hev.1
  | correct => exact absurd rfl hev.2
  | abandon => simpa [formStep] using h t b

lemma persistedTexts_nil (l : List ApiCall)
    (h : ∀ t b, ApiCall.submitCall t b ∉ l) : persistedTexts l = [] := by
  induction l with
  | nil => rfl
  | cons c rest ih =>
      have hrest : ∀ t b, ApiCall.submitCall t b ∉ rest := by
        intro t b hc
        exact h t b (List.mem_cons_of_mem c hc)
      cases c with
      | previewCall t s => simpa [persistedTexts] using ih hrest
      | submitCall t b => exact absurd (List.mem_cons_self _ _) (h t b)
      | feedbackCall b => simpa [persistedTexts] using ih hrest

/-- Claim C8: the persisting submit is invoked only after the user confirms
or corrects a shown preview — a confirm or correct click is a no-op while
no preview dialog is shown — and a session whose events contain no confirm
and no correct issues no submit call and leaves no persisted
CrisisRequest. -/
theorem abandoned_preview_not_persisted (st : FormState)
    (evs : List FormEvent)
    (hno : ∀ e ∈ evs, e ≠ FormEvent.confirm ∧ e ≠ FormEvent.correct) :
    (st.previewData = none →
      formStep st .confirm = st ∧ formStep st .correct = st) ∧
    (∀ t b, ApiCall.submitCall t b ∉ (runForm evs).calls) ∧
    persistedTexts (runForm evs).calls = [] := by
  have hmain : ∀ t b, ApiCall.submitCall t b ∉ (runForm evs).calls := by
    suffices h : ∀ evl : List FormEvent,
        (∀ e ∈ evl, e ≠ FormEvent.confirm ∧ e ≠ FormEvent.correct) →
        ∀ s : FormState, (∀ t b, ApiCall.submitCall t b ∉ s.calls) →
        ∀ t b, ApiCall.submitCall t b ∉ (evl.foldl formStep s).calls by
      exact h evs hno initForm (by simp [initForm])
    intro evl
    induction evl with
    | nil => exact fun _ s hs => hs
    | cons e rest ih =>
        intro hn s hs
        have he : e ≠ FormEvent.confirm ∧ e ≠ FormEvent.correct :=
          hn e (List.mem_cons_self _ _)
        have hrest : ∀ x ∈ rest,
            x ≠ FormEvent.confirm ∧ x ≠ FormEvent.correct :=
          fun x hx => hn x (List.mem_cons_of_mem e hx)
        exact ih hrest (formStep s e) (noSubmit_step s e he hs)
  refine ⟨?_, hmain, persistedTexts_nil _ hmain⟩
  intro hp
  constructor <;> simp [formStep, hp]

/-- A concrete abandoned session: edit, preview, abandon — with no confirm
or correct event, no submit call appears in the log and nothing is
persisted. -/
theorem abandoned_preview_not_persisted_witness :
    (formStep initForm .confirm = initForm ∧
     formStep initForm .correct = initForm) ∧
    (∀ t b, ApiCall.submitCall t b ∉ (runForm
      [.edit "Fire at Andheri Station, need ambulance",
       .submitForm (some 0), .abandon]).calls) ∧
    persistedTexts (runForm
      [.edit "Fire at Andheri Station, need ambulance",
       .submitForm (some 0), .abandon]).calls = [] := by
  have h := abandoned_preview_not_persisted initForm
    [.edit "Fire at Andheri Station, need ambulance",
     .submitForm (some 0), .abandon] (by decide)
  exact ⟨h.1 rfl, h.2.1, h.2.2⟩

/-- A coordinate pair in decimal degrees. -/
structure Coord where
  lat : ℝ
  lon : ℝ

/-- Degrees to radians. -/
noncomputable def toRad (d : ℝ) : ℝ := d * Real.pi / 180

/-- Modelled from the spec: §4.1 — the geo-distance calculator is not among
the shipped sources.  The haversine argument
sin²(Δφ/2) + cos φ₁ · cos φ₂ · sin²(Δλ/2), with the JS floats idealised as
reals. -/
noncomputable def havArg (p q : Coord) : ℝ :=
  Real.sin (toRad (q.lat - p.lat) / 2) ^ 2 +
    Real.cos (toRad p.lat) * Real.cos (toRad q.lat) *
      Real.sin (toRad (q.lon - p.lon) / 2) ^ 2

/-- Modelled from the spec: §4.1 — great-circle distance in kilometres via
the haversine formula with mean Earth radius 6371 km. -/
noncomputable def distance (p q : Coord) : ℝ :=
  2 * 6371 * Real.arcsin (Real.sqrt (havArg p q))

/-- A latitude is valid when it lies within ±90 degrees. -/
def latValid (p : Coord) : Prop := -90 ≤ p.lat ∧ p.lat ≤ 90

lemma sin_half_sq_neg (x y : ℝ) :
    Real.sin (toRad (x - y) / 2) ^ 2 = Real.sin (toRad (y - x) / 2) ^ 2 := by
  have h : toRad (x - y) / 2 = -(toRad (y - x) / 2) := by
    unfold toRad
    ring
  rw [h, Real.sin_neg]
  ring

lemma cos_toRad_nonneg (x : ℝ) (h1 : -90 ≤ x) (h2 : x ≤ 90) :
    0 ≤ Real.cos (toRad x) := by
  have hpi := Real.pi_pos
  apply Real.cos_nonneg_of_mem_Icc
  constructor
  · unfold toRad
    nlinarith [mul_nonneg (by linarith : (0:ℝ) ≤ x + 90) hpi.le]
  · unfold toRad
    nlinarith [mul_nonneg (by linarith : (0:ℝ) ≤ 90 - x) hpi.le]

lemma sin_sq_add_cos_mul_cos (s u : ℝ) :
    Real.sin u ^ 2 + Real.cos (s - u) * Real.cos (s + u)
      = Real.cos s ^ 2 := by
  rw [Real.cos_sub, Real.cos_add]
  have h1 := Real.sin_sq_add_cos_sq s
  have h2 := Real.sin_sq_add_cos_sq u
  nlinarith [h1, h2]

lemma havArg_le_one_aux (A B y : ℝ) (hA : 0 ≤ Real.cos A)
    (hB : 0 ≤ Real.cos B) :
    Real.sin ((B - A) / 2) ^ 2 +
      Real.cos A * Real.cos B * Real.sin y ^ 2 ≤ 1 := by
  have key := sin_sq_add_cos_mul_cos ((A + B) / 2) ((B - A) / 2)
  have hAB : (A + B) / 2 - (B - A) / 2 = A := by ring
  have hBA : (A + B) / 2 + (B - A) / 2 = B := by ring
  rw [hAB, hBA] at key
  have h1 : Real.sin y ^ 2 ≤ 1 := Real.sin_sq_le_one y
  have h2 : Real.cos ((A + B) / 2) ^ 2 ≤ 1 := Real.cos_sq_le_one _
  nlinarith [mul_nonneg hA hB]

/-- Claim C6: the geo-distance calculator satisfies distance(a,a) = 0 and
distance(a,b) = distance(b,a) for all coordinate pairs, and for valid
latitudes the haversine argument stays inside [0,1] — the domains of sqrt
and arcsin — so the float computation has no NaN-producing step. -/
theorem haversine_props (p q : Coord) :
    distance p p = 0 ∧
    distance p q = distance q p ∧
    (latValid p → latValid q →
      0 ≤ havArg p q ∧ havArg p q ≤ 1) := by
  refine ⟨?_, ?_, ?_⟩
  · have h : havArg p p = 0 := by
      unfold havArg
      simp [toRad]
    unfold distance
    rw [h, Real.sqrt_zero, Real.arcsin_zero, mul_zero]
  · have h : havArg p q = havArg q p := by
      unfold havArg
      rw [sin_half_sq_neg q.lat p.lat, sin_half_sq_neg q.lon p.lon]
      ring
    unfold distance
    rw [h]
  · intro hp hq
    have hA := cos_toRad_nonneg p.lat hp.1 hp.2
    have hB := cos_toRad_nonneg q.lat hq.1 hq.2
    have hlat : toRad (q.lat - p.lat) / 2
        = (toRad q.lat - toRad p.lat) / 2 := by
      unfold toRad
      ring
    constructor
    · unfold havArg
      have := mul_nonneg (mul_nonneg hA hB)
        (sq_nonneg (Real.sin (toRad (q.lon - p.lon) / 2)))
      nlinarith [sq_nonneg (Real.sin (toRad (q.lat - p.lat) / 2))]
    · unfold havArg
      rw [hlat]
      exact havArg_le_one_aux (toRad p.lat) (toRad q.lat)
        (toRad (q.lon - p.lon) / 2) hA hB

/-- Concrete coordinates (Mumbai and Delhi, and a repeated point): distance
of a point to itself is 0, the distance is symmetric, and the haversine
argument lies in [0,1]. -/
theorem haversine_props_witness :
    distance ⟨0, 0⟩ ⟨0, 0⟩ = 0 ∧
    distance ⟨19, 72⟩ ⟨28, 77⟩ = distance ⟨28, 77⟩ ⟨19, 72⟩ ∧
    (0 ≤ havArg ⟨19, 72⟩ ⟨28, 77⟩ ∧ havArg ⟨19, 72⟩ ⟨28, 77⟩ ≤ 1) := by
  have h1 := haversine_props ⟨0, 0⟩ ⟨0, 0⟩
  have h2 := haversine_props ⟨19, 72⟩ ⟨28, 77⟩
  refine ⟨h1.1, h2.2.1, h2.2.2 ?_ ?_⟩
  · exact ⟨by norm_num, by norm_num⟩
  · exact ⟨by norm_num, by norm_num⟩

end SamarthanSathi
